import Mathlib

/-!
Shallow embedding of the CodeTrack spaced-repetition core
(`src/services/spaced_repetition.py`) and the study-group compatibility
matcher (`src/services/study_group_matcher.py`), together with theorems
settling the specification claims about them.

Modelling conventions:
* Python `float` values are modelled as `ℚ`.
* Python `int` values are modelled as `ℤ` (counters that the data model
  declares non-negative are modelled as `ℕ`).
* `datetime` values are modelled as `ℤ` seconds, with `datetime.min`
  sitting at `0` (so every wall-clock instant is positive).
* Python's built-in `round(x, n)` (banker's rounding) is modelled by
  `roundTo n`, using round-half-to-even on `ℚ`.
* Python's `int(x)` truncation toward zero is modelled by `pyInt`.
* Python dicts keyed by strings (the active-session registry) are
  modelled as association lists `List (String × Session)`.
-/

namespace CodeTrack

/-- Round-half-to-even on `ℚ`, the rounding used by Python's `round`. -/
def roundHalfEven (x : ℚ) : ℤ :=
  let f := ⌊x⌋
  let r := x - f
  if r < 1/2 then f
  else if 1/2 < r then f + 1
  else if 2 ∣ f then f else f + 1

/-- Python's `round(x, n)`: round to `n` decimal places, ties to even. -/
def roundTo (n : ℕ) (x : ℚ) : ℚ :=
  (roundHalfEven (x * (10 : ℚ) ^ n) : ℚ) / (10 : ℚ) ^ n

/-- Python's `int(x)` applied to a float: truncation toward zero. -/
def pyInt (x : ℚ) : ℤ :=
  if 0 ≤ x then ⌊x⌋ else ⌈x⌉

/-- `datetime.min`, placed at instant 0 of the integer time line. -/
def datetimeMin : ℤ := 0

/-- The card-parameter dictionary handed to `SM2Algorithm.calculate_next_review`
(the dict built by `SpacedRepetitionManager._get_due_cards`; note it carries
no `next_review` key). -/
structure DueCard where
  id : ℤ
  topic : String
  question : String
  answer : String
  category : Option String
  difficulty : Option String
  easeFactor : ℚ
  interval : ℤ
  repetitionCount : ℕ
  reviewCount : ℕ
  isAiGenerated : Bool
deriving DecidableEq, Repr, Inhabited

/-- The `ReviewResult` dataclass of `spaced_repetition.py`. -/
structure ReviewResult where
  cardId : ℤ
  quality : ℤ
  previousInterval : ℤ
  newInterval : ℤ
  previousEaseFactor : ℚ
  newEaseFactor : ℚ
  repetitions : ℕ
  nextReview : ℤ
  reviewCount : ℕ
deriving DecidableEq, Repr

namespace SM2Algorithm

/-- `self.min_ease_factor` -/
def minEaseFactor : ℚ := 13/10
/-- `self.max_ease_factor` -/
def maxEaseFactor : ℚ := 4
/-- `self.default_ease_factor` -/
def defaultEaseFactor : ℚ := 5/2
/-- `self.default_interval` -/
def defaultInterval : ℤ := 1

/-- `SM2Algorithm._update_ease_factor`: apply the SM-2 ease-factor formula,
clamp into `[min_ease_factor, max_ease_factor]`, round to two decimals. -/
def updateEaseFactor (currentEaseFactor : ℚ) (quality : ℤ) : ℚ :=
  let newEaseFactor :=
    currentEaseFactor +
      (1/10 - ((5 : ℚ) - quality) * (8/100 + ((5 : ℚ) - quality) * (2/100)))
  roundTo 2 (max minEaseFactor (min maxEaseFactor newEaseFactor))

/-- `SM2Algorithm.calculate_next_review`: the SM-2 state transition.
`now` is the value of `datetime.now()` during the call; the next review
instant is `now + interval` days (86400 seconds per day). -/
def calculateNextReview (cardData : DueCard) (quality : ℤ) (now : ℤ) :
    ReviewResult :=
  let easeFactor := cardData.easeFactor
  let interval := cardData.interval
  let repetitions := cardData.repetitionCount
  let reviewCount := cardData.reviewCount
  let quality := if quality < 0 ∨ 4 < quality then 0 else quality
  let updated : ℕ × ℤ :=
    if quality < 3 then
      (0, 1)
    else
      let repetitions := repetitions + 1
      if repetitions = 1 then (repetitions, 1)
      else if repetitions = 2 then (repetitions, 6)
      else (repetitions, pyInt (interval * easeFactor))
  let repetitions := updated.1
  let interval := updated.2
  let newEaseFactor := updateEaseFactor easeFactor quality
  let nextReview := now + interval * 86400
  { cardId := cardData.id
    quality := quality
    previousInterval := cardData.interval
    newInterval := interval
    previousEaseFactor := easeFactor
    newEaseFactor := newEaseFactor
    repetitions := repetitions
    nextReview := nextReview
    reviewCount := reviewCount + 1 }

end SM2Algorithm

/-! Basic facts about the rounding helpers. -/

theorem roundHalfEven_intCast (n : ℤ) : roundHalfEven (n : ℚ) = n := by
  unfold roundHalfEven
  simp

theorem floor_le_roundHalfEven (x : ℚ) : ⌊x⌋ ≤ roundHalfEven x := by
  simp only [roundHalfEven]
  split_ifs <;> omega

theorem roundHalfEven_le_floor_add_one (x : ℚ) : roundHalfEven x ≤ ⌊x⌋ + 1 := by
  simp only [roundHalfEven]
  split_ifs <;> omega

theorem roundHalfEven_mono {x y : ℚ} (h : x ≤ y) :
    roundHalfEven x ≤ roundHalfEven y := by
  have hf : ⌊x⌋ ≤ ⌊y⌋ := Int.floor_mono h
  rcases eq_or_lt_of_le hf with heq | hlt
  · have hxy : x - (⌊x⌋ : ℚ) ≤ y - (⌊y⌋ : ℚ) := by
      rw [heq]; linarith
    simp only [roundHalfEven]
    split_ifs <;> first | omega | (exfalso; linarith)
  · simp only [roundHalfEven]
    split_ifs <;> omega

theorem roundTo_mono (n : ℕ) {x y : ℚ} (h : x ≤ y) : roundTo n x ≤ roundTo n y := by
  unfold roundTo
  have hp : (0 : ℚ) < 10 ^ n := by positivity
  have h1 : roundHalfEven (x * 10 ^ n) ≤ roundHalfEven (y * 10 ^ n) :=
    roundHalfEven_mono (mul_le_mul_of_nonneg_right h hp.le)
  have h2 : ((roundHalfEven (x * 10 ^ n) : ℤ) : ℚ) ≤ ((roundHalfEven (y * 10 ^ n) : ℤ) : ℚ) := by
    exact_mod_cast h1
  gcongr

theorem roundTo_of_int (n : ℕ) (m : ℤ) :
    roundTo n ((m : ℚ) / 10 ^ n) = (m : ℚ) / 10 ^ n := by
  have h10 : ((10 : ℚ)) ^ n ≠ 0 := by positivity
  unfold roundTo
  rw [div_mul_cancel₀ _ h10, roundHalfEven_intCast]

theorem roundTo2_bot : roundTo 2 (13/10 : ℚ) = 13/10 := by
  have h := roundTo_of_int 2 130
  norm_num at h
  exact h

theorem roundTo2_top : roundTo 2 (4 : ℚ) = 4 := by
  have h := roundTo_of_int 2 400
  norm_num at h
  exact h

namespace SM2Algorithm

theorem pyInt_eq_floor {x : ℚ} (h : 0 ≤ x) : pyInt x = ⌊x⌋ := by
  unfold pyInt
  rw [if_pos h]

/-- The clamped-and-rounded ease factor always lands in `[1.3, 4.0]`,
with no assumption on the incoming value. -/
theorem updateEaseFactor_mem (ef : ℚ) (q : ℤ) :
    13/10 ≤ updateEaseFactor ef q ∧ updateEaseFactor ef q ≤ 4 := by
  unfold updateEaseFactor
  set e := ef + (1/10 - ((5 : ℚ) - q) * (8/100 + ((5 : ℚ) - q) * (2/100))) with he
  have h1 : (13/10 : ℚ) ≤ max minEaseFactor (min maxEaseFactor e) := le_max_left _ _
  have h2 : max minEaseFactor (min maxEaseFactor e) ≤ 4 := by
    apply max_le
    · norm_num [minEaseFactor]
    · exact le_trans (min_le_left _ _) (by norm_num [maxEaseFactor])
  constructor
  · calc (13/10 : ℚ) = roundTo 2 (13/10) := roundTo2_bot.symm
    _ ≤ _ := roundTo_mono 2 h1
  · calc roundTo 2 (max minEaseFactor (min maxEaseFactor e)) ≤ roundTo 2 4 :=
      roundTo_mono 2 h2
    _ = 4 := roundTo2_top

/-- Monotonicity of the raw SM-2 ease delta in the quality rating. -/
theorem easeDelta_mono {q1 q2 : ℤ} (h0 : 0 ≤ q1) (h12 : q1 ≤ q2) (h4 : q2 ≤ 4) :
    (1/10 - ((5 : ℚ) - q1) * (8/100 + ((5 : ℚ) - q1) * (2/100))) ≤
      (1/10 - ((5 : ℚ) - q2) * (8/100 + ((5 : ℚ) - q2) * (2/100))) := by
  have hq : (q1 : ℚ) ≤ (q2 : ℚ) := by exact_mod_cast h12
  have hq0 : (0 : ℚ) ≤ (q1 : ℚ) := by exact_mod_cast h0
  have hq4 : (q2 : ℚ) ≤ 4 := by exact_mod_cast h4
  nlinarith [mul_nonneg (sub_nonneg.mpr hq) (show (0 : ℚ) ≤ 10 - q1 - q2 by linarith)]

theorem updateEaseFactor_mono (ef : ℚ) {q1 q2 : ℤ} (h0 : 0 ≤ q1) (h12 : q1 ≤ q2)
    (h4 : q2 ≤ 4) : updateEaseFactor ef q1 ≤ updateEaseFactor ef q2 := by
  unfold updateEaseFactor
  apply roundTo_mono
  apply max_le_max le_rfl
  apply min_le_min le_rfl
  have := easeDelta_mono h0 h12 h4
  linarith

end SM2Algorithm

/-- A concrete card record used as the evaluation point of several witnesses,
with the default scheduling parameters of a fresh flashcard. -/
def sampleCard : DueCard :=
  { id := 1, topic := "graphs", question := "what is BFS", answer := "level order"
    category := none, difficulty := none, easeFactor := 5/2, interval := 1
    repetitionCount := 0, reviewCount := 0, isAiGenerated := false }

/-- Claim C1: for every input scheduling state with ease_factor in [1.3, 4.0]
and every integer quality in [0, 4], the ease factor in the output of the
Scheduler (`SM2Algorithm.calculate_next_review`) lies in [1.3, 4.0]. -/
theorem C1_ease_factor_bounds (card : DueCard) (q now : ℤ)
    (hef1 : 13/10 ≤ card.easeFactor) (hef2 : card.easeFactor ≤ 4)
    (hq0 : 0 ≤ q) (hq4 : q ≤ 4) :
    13/10 ≤ (SM2Algorithm.calculateNextReview card q now).newEaseFactor ∧
      (SM2Algorithm.calculateNextReview card q now).newEaseFactor ≤ 4 := by
  have h : (SM2Algorithm.calculateNextReview card q now).newEaseFactor =
      SM2Algorithm.updateEaseFactor card.easeFactor
        (if q < 0 ∨ 4 < q then 0 else q) := rfl
  rw [h]
  exact SM2Algorithm.updateEaseFactor_mem _ _

/-- Witness for C1, at the default fresh card and quality 3. -/
theorem C1_ease_factor_bounds_witness :
    (13/10 ≤ sampleCard.easeFactor ∧ sampleCard.easeFactor ≤ 4) ∧
      (13/10 ≤ (SM2Algorithm.calculateNextReview sampleCard 3 0).newEaseFactor ∧
        (SM2Algorithm.calculateNextReview sampleCard 3 0).newEaseFactor ≤ 4) :=
  ⟨⟨by norm_num [sampleCard], by norm_num [sampleCard]⟩,
    C1_ease_factor_bounds sampleCard 3 0 (by norm_num [sampleCard])
      (by norm_num [sampleCard]) (by norm_num) (by norm_num)⟩

/-- Claim C2: the Scheduler's output follows the SM-2 transition table:
failure (quality < 3) resets repetitions to 0 and the interval to 1; success
(quality ≥ 3) increments repetitions, with interval 1, 6, or
floor(old interval × old ease factor) according to the new repetition count;
the total review count always increments. -/
theorem C2_sm2_transition (card : DueCard) (q now : ℤ)
    (hq0 : 0 ≤ q) (hq4 : q ≤ 4) (hint : 1 ≤ card.interval)
    (hef : 13/10 ≤ card.easeFactor) :
    (q < 3 → (SM2Algorithm.calculateNextReview card q now).repetitions = 0 ∧
        (SM2Algorithm.calculateNextReview card q now).newInterval = 1) ∧
    (3 ≤ q → (SM2Algorithm.calculateNextReview card q now).repetitions =
          card.repetitionCount + 1 ∧
        (SM2Algorithm.calculateNextReview card q now).newInterval =
          (if card.repetitionCount + 1 = 1 then 1
           else if card.repetitionCount + 1 = 2 then 6
           else ⌊(card.interval : ℚ) * card.easeFactor⌋)) ∧
    (SM2Algorithm.calculateNextReview card q now).reviewCount =
      card.reviewCount + 1 := by
  have hval : (if q < 0 ∨ 4 < q then (0 : ℤ) else q) = q := by
    rw [if_neg]; omega
  refine ⟨fun h3 => ?_, fun h3 => ?_, rfl⟩
  · constructor <;>
      simp [SM2Algorithm.calculateNextReview, hval, if_pos h3]
  · have hq3 : ¬ q < 3 := not_lt.mpr h3
    have hnn : (0 : ℚ) ≤ (card.interval : ℚ) * card.easeFactor := by
      have h1 : (1 : ℚ) ≤ (card.interval : ℚ) := by exact_mod_cast hint
      nlinarith
    constructor
    · simp [SM2Algorithm.calculateNextReview, hval, if_neg hq3]
      split_ifs <;> rfl
    · simp only [SM2Algorithm.calculateNextReview, hval, if_neg hq3]
      split_ifs <;> simp [SM2Algorithm.pyInt_eq_floor hnn]

/-- Witness for C2, at the default fresh card and quality 4. -/
theorem C2_sm2_transition_witness :
    ((0 : ℤ) ≤ 4 ∧ (4 : ℤ) ≤ 4 ∧ 1 ≤ sampleCard.interval ∧
      13/10 ≤ sampleCard.easeFactor) ∧
    (((4 : ℤ) < 3 → (SM2Algorithm.calculateNextReview sampleCard 4 0).repetitions = 0 ∧
        (SM2Algorithm.calculateNextReview sampleCard 4 0).newInterval = 1) ∧
    ((3 : ℤ) ≤ 4 → (SM2Algorithm.calculateNextReview sampleCard 4 0).repetitions =
          sampleCard.repetitionCount + 1 ∧
        (SM2Algorithm.calculateNextReview sampleCard 4 0).newInterval =
          (if sampleCard.repetitionCount + 1 = 1 then 1
           else if sampleCard.repetitionCount + 1 = 2 then 6
           else ⌊(sampleCard.interval : ℚ) * sampleCard.easeFactor⌋)) ∧
    (SM2Algorithm.calculateNextReview sampleCard 4 0).reviewCount =
      sampleCard.reviewCount + 1) :=
  ⟨⟨by norm_num, by norm_num, by norm_num [sampleCard], by norm_num [sampleCard]⟩,
    C2_sm2_transition sampleCard 4 0 (by norm_num) (by norm_num)
      (by norm_num [sampleCard]) (by norm_num [sampleCard])⟩

/-- Claim C6: for a fixed prior ease factor in [1.3, 4.0] and qualities
q1 ≤ q2 in [0, 4], the Scheduler's new ease factor for q1 is at most the new
ease factor for q2. -/
theorem C6_ease_factor_monotone (card : DueCard) (q1 q2 now : ℤ)
    (hef1 : 13/10 ≤ card.easeFactor) (hef2 : card.easeFactor ≤ 4)
    (h0 : 0 ≤ q1) (h12 : q1 ≤ q2) (h4 : q2 ≤ 4) :
    (SM2Algorithm.calculateNextReview card q1 now).newEaseFactor ≤
      (SM2Algorithm.calculateNextReview card q2 now).newEaseFactor := by
  have h1 : (SM2Algorithm.calculateNextReview card q1 now).newEaseFactor =
      SM2Algorithm.updateEaseFactor card.easeFactor
        (if q1 < 0 ∨ 4 < q1 then 0 else q1) := rfl
  have h2 : (SM2Algorithm.calculateNextReview card q2 now).newEaseFactor =
      SM2Algorithm.updateEaseFactor card.easeFactor
        (if q2 < 0 ∨ 4 < q2 then 0 else q2) := rfl
  rw [h1, h2, if_neg (by omega : ¬(q1 < 0 ∨ 4 < q1)),
    if_neg (by omega : ¬(q2 < 0 ∨ 4 < q2))]
  exact SM2Algorithm.updateEaseFactor_mono card.easeFactor h0 h12 h4

/-- Witness for C6, at the default fresh card with qualities 1 and 3. -/
theorem C6_ease_factor_monotone_witness :
    (13/10 ≤ sampleCard.easeFactor ∧ sampleCard.easeFactor ≤ 4 ∧
      (0 : ℤ) ≤ 1 ∧ (1 : ℤ) ≤ 3 ∧ (3 : ℤ) ≤ 4) ∧
    (SM2Algorithm.calculateNextReview sampleCard 1 0).newEaseFactor ≤
      (SM2Algorithm.calculateNextReview sampleCard 3 0).newEaseFactor :=
  ⟨⟨by norm_num [sampleCard], by norm_num [sampleCard], by norm_num, by norm_num,
      by norm_num⟩,
    C6_ease_factor_monotone sampleCard 1 3 0 (by norm_num [sampleCard])
      (by norm_num [sampleCard]) (by norm_num) (by norm_num) (by norm_num)⟩

/-! Embedding of `src/services/study_group_matcher.py`.

Python's substring test `needle in hay` is modelled as infix containment on
the character lists; `list.index` raising `ValueError` for a missing element
has no counterpart, so `List.indexOf` (which returns the length) stands in —
the scoring claims only involve the three valid skill strings, for which the
two agree. The untyped `platform_stats: Dict[str, Any]` field of
`UserProfile` is not consulted by any scoring function and is omitted. -/

/-- Python's `needle in hay` on strings: substring containment. -/
def strIn (needle hay : String) : Bool := decide (needle.data <:+: hay.data)

/-- Python's `s.lower()` on ASCII strings. -/
def pyLower (s : String) : String := ⟨s.data.map Char.toLower⟩

/-- Python's `d.get(k, default)` on a string-keyed dict. -/
def dictGetD {β : Type} (d : List (String × β)) (k : String) (default : β) : β :=
  match d.lookup k with
  | some v => v
  | none => default

/-- The `UserProfile` dataclass of `study_group_matcher.py`. -/
structure UserProfile where
  userId : ℤ
  skillLevel : String
  interests : List String
  codingHoursPerWeek : ℤ
  preferredSchedule : String
  timezone : String
  learningGoals : List String
  joinDate : ℤ
deriving DecidableEq, Repr

/-- The `StudyGroupProfile` dataclass of `study_group_matcher.py`. -/
structure StudyGroupProfile where
  groupId : ℤ
  name : String
  topic : String
  skillLevel : String
  currentSize : ℤ
  maxSize : ℤ
  activityLevel : ℚ
  memberSkillDistribution : List (String × ℕ)
  averageCodingHours : ℚ
  preferredSchedule : String
  createdDate : ℤ
deriving DecidableEq, Repr

namespace StudyGroupMatcher

/-- `self.topic_similarity_matrix` -/
def topicSimilarityMatrix : List (String × List String) :=
  [("algorithms", ["data_structures", "problem_solving", "competitive_programming"]),
   ("data_structures", ["algorithms", "problem_solving", "interview_prep"]),
   ("system_design", ["architecture", "scalability", "distributed_systems"]),
   ("web_development", ["frontend", "backend", "full_stack"]),
   ("mobile_development", ["ios", "android", "react_native"]),
   ("machine_learning", ["ai", "data_science", "deep_learning"]),
   ("competitive_programming", ["algorithms", "data_structures", "problem_solving"]),
   ("interview_preparation", ["algorithms", "data_structures", "system_design"])]

/-- `StudyGroupMatcher._calculate_skill_compatibility` -/
def calculateSkillCompatibility (userSkill groupSkill : String)
    (memberDistribution : List (String × ℕ)) : ℚ :=
  if userSkill = groupSkill then 1
  else
    let skillLevels := ["beginner", "intermediate", "advanced"]
    let userIndex := skillLevels.indexOf userSkill
    let groupIndex := skillLevels.indexOf groupSkill
    if ((userIndex : ℤ) - (groupIndex : ℤ)).natAbs = 1 then 7/10
    else if ((userIndex : ℤ) - (groupIndex : ℤ)).natAbs = 2 then 3/10
    else
      let totalMembers := (memberDistribution.map Prod.snd).sum
      if 0 < totalMembers then
        let userSkillRatio : ℚ := (dictGetD memberDistribution userSkill 0 : ℕ) / totalMembers
        if userSkillRatio < 1/2 then min 1 (8/10 + 2/10 * (1 - userSkillRatio))
        else 1/2
      else 1/2

/-- `StudyGroupMatcher._calculate_interest_compatibility` -/
def calculateInterestCompatibility (userInterests : List String)
    (groupTopic : String) : ℚ :=
  if userInterests.isEmpty then 1/2
  else if (userInterests.map pyLower).contains (pyLower groupTopic) then 1
  else
    let relatedTopics := dictGetD topicSimilarityMatrix (pyLower groupTopic) []
    if userInterests.any (fun interest =>
        relatedTopics.any (fun related => strIn related (pyLower interest))) then 8/10
    else if userInterests.any (fun interest =>
        strIn (pyLower groupTopic) (pyLower interest) ||
          strIn (pyLower interest) (pyLower groupTopic)) then 6/10
    else 3/10

/-- `StudyGroupMatcher._calculate_schedule_compatibility` -/
def calculateScheduleCompatibility (userSchedule groupSchedule : String) : ℚ :=
  if userSchedule = "flexible" ∨ groupSchedule = "flexible" then 8/10
  else if userSchedule = groupSchedule then 1
  else
    let scheduleGroups :=
      [("morning", ["morning", "early_morning"]),
       ("afternoon", ["afternoon", "lunch_time"]),
       ("evening", ["evening", "night"]),
       ("weekend", ["weekend", "saturday", "sunday"])]
    if scheduleGroups.any (fun g =>
        g.2.contains userSchedule && g.2.contains groupSchedule) then 7/10
    else 4/10

/-- `StudyGroupMatcher._calculate_activity_compatibility` -/
def calculateActivityCompatibility (userHours : ℤ) (groupAvgHours : ℚ) : ℚ :=
  if groupAvgHours = 0 then 1/2
  else
    let ratio := (userHours : ℚ) / groupAvgHours
    if 7/10 ≤ ratio ∧ ratio ≤ 3/2 then 1
    else if 1/2 ≤ ratio ∧ ratio ≤ 2 then 8/10
    else if 3/10 ≤ ratio ∧ ratio ≤ 3 then 6/10
    else 3/10

/-- `StudyGroupMatcher._calculate_size_compatibility` -/
def calculateSizeCompatibility (currentSize maxSize : ℤ) : ℚ :=
  let fillRatio := (currentSize : ℚ) / (maxSize : ℚ)
  if 3/10 ≤ fillRatio ∧ fillRatio ≤ 7/10 then 1
  else if 1/5 ≤ fillRatio ∧ fillRatio ≤ 4/5 then 8/10
  else if 1/10 ≤ fillRatio ∧ fillRatio ≤ 9/10 then 6/10
  else 3/10

/-- `StudyGroupMatcher._calculate_compatibility`: the weighted five-factor
score, clamped to [0, 1]. A group with `max_size = 0` makes the size
sub-score raise `ZeroDivisionError` in Python, which the method's handler
turns into a 0.0 score; that guard is made explicit here. -/
def calculateCompatibility (u : UserProfile) (g : StudyGroupProfile) : ℚ :=
  if g.maxSize = 0 then 0
  else
    let skillScore := calculateSkillCompatibility u.skillLevel g.skillLevel
      g.memberSkillDistribution
    let interestScore := calculateInterestCompatibility u.interests g.topic
    let scheduleScore := calculateScheduleCompatibility u.preferredSchedule
      g.preferredSchedule
    let activityScore := calculateActivityCompatibility u.codingHoursPerWeek
      g.averageCodingHours
    let sizeScore := calculateSizeCompatibility g.currentSize g.maxSize
    let totalScore := skillScore * (4/10) + interestScore * (25/100) +
      scheduleScore * (15/100) + activityScore * (1/10) + sizeScore * (1/10)
    min 1 (max 0 totalScore)

end StudyGroupMatcher

/-- The user of the spec's Matcher exact-match scenario. -/
def c5User : UserProfile :=
  { userId := 1, skillLevel := "intermediate", interests := ["algorithms"]
    codingHoursPerWeek := 10, preferredSchedule := "flexible", timezone := "UTC"
    learningGoals := [], joinDate := 0 }

/-- The group of the spec's Matcher exact-match scenario. -/
def c5Group : StudyGroupProfile :=
  { groupId := 1, name := "Algo Circle", topic := "algorithms"
    skillLevel := "intermediate", currentSize := 4, maxSize := 10
    activityLevel := 1, memberSkillDistribution := [("intermediate", 4)]
    averageCodingHours := 10, preferredSchedule := "flexible", createdDate := 0 }

/-- Claim C5: on the spec's exact-match scenario the Matcher's compatibility
score is exactly 0.97 = 0.40×1.0 + 0.25×1.0 + 0.15×0.8 + 0.10×1.0 + 0.10×1.0. -/
theorem C5_matcher_exact_match :
    StudyGroupMatcher.calculateCompatibility c5User c5Group = 97/100 ∧
      (97/100 : ℚ) =
        (4/10) * 1 + (25/100) * 1 + (15/100) * (8/10) + (1/10) * 1 + (1/10) * 1 := by
  have h1 : StudyGroupMatcher.calculateSkillCompatibility "intermediate"
      "intermediate" [("intermediate", 4)] = 1 := by decide
  have h2 : StudyGroupMatcher.calculateInterestCompatibility ["algorithms"]
      "algorithms" = 1 := by decide
  have h3 : StudyGroupMatcher.calculateScheduleCompatibility "flexible"
      "flexible" = 8/10 := by
    simp [StudyGroupMatcher.calculateScheduleCompatibility]
  have h4 : StudyGroupMatcher.calculateActivityCompatibility 10 10 = 1 := by
    norm_num [StudyGroupMatcher.calculateActivityCompatibility]
  have h5 : StudyGroupMatcher.calculateSizeCompatibility 4 10 = 1 := by
    norm_num [StudyGroupMatcher.calculateSizeCompatibility]
  constructor
  · simp only [StudyGroupMatcher.calculateCompatibility, c5User, c5Group]
    rw [h1, h2, h3, h4, h5]
    norm_num [min_def, max_def]
  · norm_num

/-! Embedding of `SpacedRepetitionManager` (`src/services/spaced_repetition.py`).

The collaborator card store (`models.Flashcard` plus the ORM session) is
modelled as a `List Flashcard` threaded through the operations, and the
outcome of `db.session.commit()` is an explicit `commitOk : Bool` input: the
store either accepts or rejects the write. `datetime.now()` becomes an
explicit `now : ℤ` argument (seconds). The `self.review_sessions` dict is an
association list `MgrState`. -/

/-- The `models.Flashcard` record as consumed by the manager. -/
structure Flashcard where
  id : ℤ
  userId : ℤ
  topic : String
  question : String
  answer : String
  category : Option String
  difficulty : Option String
  easeFactor : ℚ
  interval : ℤ
  repetitionCount : ℕ
  reviewCount : ℕ
  isAiGenerated : Bool
  lastReviewed : Option ℤ
  nextReview : Option ℤ
deriving DecidableEq, Repr

/-- One entry of a session's `reviewed_cards` log. -/
structure ReviewedEntry where
  cardId : ℤ
  quality : ℤ
  reviewTime : ℤ
  newInterval : ℤ
  newEaseFactor : ℚ
deriving DecidableEq, Repr

/-- The per-session dict stored in `self.review_sessions`. -/
structure Session where
  sessionId : String
  userId : ℤ
  startTime : ℤ
  cards : List DueCard
  currentCardIndex : ℕ
  reviewedCards : List ReviewedEntry
  category : Option String
  maxCards : ℕ
deriving DecidableEq, Repr

/-- The manager's `self.review_sessions` dict. -/
abbrev MgrState := List (String × Session)

/-- First-match lookup in the session dict. -/
def findSession : MgrState → String → Option Session
  | [], _ => none
  | (k, s) :: rest, sid => if k = sid then some s else findSession rest sid

/-- In-place overwrite of an existing key of the session dict. -/
def setSession : MgrState → String → Session → MgrState
  | [], _, _ => []
  | (k, v) :: rest, sid, s =>
    if k = sid then (k, s) :: setSession rest sid s
    else (k, v) :: setSession rest sid s

/-- Python's `del d[sid]` on the session dict. -/
def eraseSession (st : MgrState) (sid : String) : MgrState :=
  st.filter fun kv => !(kv.1 == sid)

/-- Python's `d[sid] = s` on the session dict. -/
def storeSession (st : MgrState) (sid : String) (s : Session) : MgrState :=
  if (findSession st sid).isSome then setSession st sid s else st ++ [(sid, s)]

/-- The `f"session_{user_id}_{...}"` identifier; the formatted timestamp is
rendered as the numeric instant. -/
def mkSessionId (userId : ℤ) (now : ℤ) : String :=
  "session_" ++ toString userId ++ "_" ++ toString now

namespace SpacedRepetitionManager

/-- `SpacedRepetitionManager._is_card_due`:
no `next_review` means a new card, always due. -/
def isCardDue (card : Flashcard) (now : ℤ) : Bool :=
  match card.nextReview with
  | none => true
  | some t => decide (t ≤ now)

/-- The card dict built inside `_get_due_cards` (it has no `next_review`
entry). -/
def toDueCard (card : Flashcard) : DueCard :=
  { id := card.id
    topic := card.topic
    question := card.question
    answer := card.answer
    category := card.category
    difficulty := card.difficulty
    easeFactor := card.easeFactor
    interval := card.interval
    repetitionCount := card.repetitionCount
    reviewCount := card.reviewCount
    isAiGenerated := card.isAiGenerated }

/-- The Python sort key
`(x.get('next_review', datetime.min) < datetime.now(), x.get('ease_factor', 2.5))`:
the first component reads a key the due-card dicts do not carry, so it is
`datetime.min < now` for every card. -/
def dueSortKey (now : ℤ) (x : DueCard) : Bool × ℚ :=
  (decide (datetimeMin < now), x.easeFactor)

/-- Lexicographic tuple comparison on sort keys, with `false < true` as in
Python. -/
def dueKeyLe (now : ℤ) (a b : DueCard) : Prop :=
  (dueSortKey now a).1 < (dueSortKey now b).1 ∨
    ((dueSortKey now a).1 = (dueSortKey now b).1 ∧
      (dueSortKey now a).2 ≤ (dueSortKey now b).2)

instance (now : ℤ) : DecidableRel (dueKeyLe now) := fun a b => by
  unfold dueKeyLe; infer_instance

instance (now : ℤ) : IsTotal DueCard (dueKeyLe now) := by
  constructor
  intro a b
  unfold dueKeyLe
  rcases lt_trichotomy (dueSortKey now a).1 (dueSortKey now b).1 with h | h | h
  · exact Or.inl (Or.inl h)
  · rcases le_total (dueSortKey now a).2 (dueSortKey now b).2 with h2 | h2
    · exact Or.inl (Or.inr ⟨h, h2⟩)
    · exact Or.inr (Or.inr ⟨h.symm, h2⟩)
  · exact Or.inr (Or.inl h)

instance (now : ℤ) : IsTrans DueCard (dueKeyLe now) := by
  constructor
  intro a b c hab hbc
  unfold dueKeyLe at *
  rcases hab with h1 | ⟨h1, h1'⟩ <;> rcases hbc with h2 | ⟨h2, h2'⟩
  · exact Or.inl (lt_trans h1 h2)
  · exact Or.inl (h2 ▸ h1)
  · exact Or.inl (h1 ▸ h2)
  · exact Or.inr ⟨h1.trans h2, le_trans h1' h2'⟩

/-- The selection phase of `_get_due_cards`: the user's (optionally
category-filtered) cards that are due, converted to card dicts. -/
def dueSelection (cards : List Flashcard) (userId : ℤ) (category : Option String)
    (now : ℤ) : List DueCard :=
  let query := cards.filter fun c => c.userId == userId
  let query := match category with
    | none => query
    | some cat => query.filter fun c => c.category == some cat
  (query.filter fun c => isCardDue c now).map toDueCard

/-- `SpacedRepetitionManager._get_due_cards`: select the due cards, sort them
by the Python key (`list.sort` is stable, modelled by insertion sort), and
truncate to `max_cards`. -/
def getDueCards (cards : List Flashcard) (userId : ℤ) (category : Option String)
    (maxCards : ℕ) (now : ℤ) : List DueCard :=
  (List.insertionSort (dueKeyLe now) (dueSelection cards userId category now)).take
    maxCards

/-- `SpacedRepetitionManager._update_card_in_database`: look the card up,
copy the review result into it, and commit. A missing card and a failed
commit are both caught, logged and swallowed, leaving the store unchanged
and reporting nothing to the caller. -/
def updateCardInDatabase (db : List Flashcard) (commitOk : Bool)
    (r : ReviewResult) (now : ℤ) : List Flashcard :=
  if (db.find? fun c => c.id == r.cardId).isNone then db
  else if commitOk then
    db.map fun c =>
      if c.id == r.cardId then
        { c with
          easeFactor := r.newEaseFactor
          interval := r.newInterval
          repetitionCount := r.repetitions
          reviewCount := r.reviewCount
          lastReviewed := some now
          nextReview := some r.nextReview }
      else c
  else db

/-- The `progress` sub-dict of a `review_card` continue payload. -/
structure StepProgress where
  completed : ℕ
  total : ℕ
  remaining : ℕ
deriving DecidableEq, Repr

/-- The `review_result` sub-dict of a `review_card` continue payload. -/
structure StepTelemetry where
  quality : ℤ
  newInterval : ℤ
  newEaseFactor : ℚ
  nextReview : ℤ
deriving DecidableEq, Repr

/-- The completion payload assembled by `_complete_session`. -/
structure SessionSummary where
  sessionId : String
  totalCardsReviewed : ℕ
  averageQuality : ℚ
  durationMinutes : ℚ
  category : Option String
  startTime : ℤ
  endTime : ℤ
  againCount : ℕ
  hardCount : ℕ
  goodCount : ℕ
  easyCount : ℕ
  perfectCount : ℕ
deriving DecidableEq, Repr

/-- The possible return dicts of `review_card`. -/
inductive ReviewCardResult where
  /-- `{"error": "Session not found"}` (SessionNotFound) -/
  | sessionNotFound : ReviewCardResult
  /-- `{"error": "No more cards in session"}` (SessionExhausted) -/
  | noMoreCards : ReviewCardResult
  /-- `{"status": "continue", "current_card": ..., "progress": ...,
  "review_result": ...}` -/
  | nextCard (card : DueCard) (progress : StepProgress)
      (telemetry : StepTelemetry) : ReviewCardResult
  /-- `{"status": "completed", "summary": ..., "quality_breakdown": ...}` -/
  | completed (summary : SessionSummary) : ReviewCardResult
deriving DecidableEq, Repr

/-- The summary computation of `_complete_session` (its removal of the
session from the dict happens at the call site in `reviewCard`). -/
def completeSession (s : Session) (sessionId : String) (now : ℤ) :
    ReviewCardResult :=
  let totalCards := s.reviewedCards.length
  let qualityScores := s.reviewedCards.map fun e => e.quality
  let avgQuality : ℚ :=
    if 0 < totalCards then (qualityScores.sum : ℚ) / (totalCards : ℚ) else 0
  let durationMinutes : ℚ := ((now - s.startTime : ℤ) : ℚ) / 60
  .completed
    { sessionId := sessionId
      totalCardsReviewed := totalCards
      averageQuality := roundTo 2 avgQuality
      durationMinutes := roundTo 1 durationMinutes
      category := s.category
      startTime := s.startTime
      endTime := now
      againCount := qualityScores.count 0
      hardCount := qualityScores.count 1
      goodCount := qualityScores.count 2
      easyCount := qualityScores.count 3
      perfectCount := qualityScores.count 4 }

/-- `SpacedRepetitionManager.review_card`: look up the session, reject an
exhausted cursor, apply the Scheduler to the current card, push the result
to the store, append to the log, advance the cursor, and either complete
the session or hand back the next card. -/
def reviewCard (st : MgrState) (db : List Flashcard) (sessionId : String)
    (quality : ℤ) (commitOk : Bool) (now : ℤ) :
    ReviewCardResult × MgrState × List Flashcard :=
  match findSession st sessionId with
  | none => (.sessionNotFound, st, db)
  | some s =>
    if h : s.currentCardIndex < s.cards.length then
      let currentCard := s.cards.get ⟨s.currentCardIndex, h⟩
      let reviewResult := SM2Algorithm.calculateNextReview currentCard quality now
      let db2 := updateCardInDatabase db commitOk reviewResult now
      let entry : ReviewedEntry :=
        { cardId := currentCard.id, quality := quality, reviewTime := now,
          newInterval := reviewResult.newInterval,
          newEaseFactor := reviewResult.newEaseFactor }
      let s2 : Session :=
        { s with
          reviewedCards := s.reviewedCards ++ [entry]
          currentCardIndex := s.currentCardIndex + 1 }
      if h2 : s2.currentCardIndex < s2.cards.length then
        (.nextCard (s2.cards.get ⟨s2.currentCardIndex, h2⟩)
          { completed := s2.currentCardIndex, total := s2.cards.length,
            remaining := s2.cards.length - s2.currentCardIndex }
          { quality := quality, newInterval := reviewResult.newInterval,
            newEaseFactor := reviewResult.newEaseFactor,
            nextReview := reviewResult.nextReview },
          setSession st sessionId s2, db2)
      else
        (completeSession s2 sessionId now,
          eraseSession (setSession st sessionId s2) sessionId, db2)
    else (.noMoreCards, st, db)

/-- The dict returned by `get_session_progress` for a live session. -/
structure ProgressInfo where
  sessionId : String
  completed : ℕ
  total : ℕ
  remaining : ℕ
  startTime : ℤ
  durationMinutes : ℚ
  category : Option String
deriving DecidableEq, Repr

/-- The possible return dicts of `get_session_progress`. -/
inductive GetProgressResult where
  /-- `{"error": "Session not found"}` -/
  | sessionNotFound : GetProgressResult
  | progress (info : ProgressInfo) : GetProgressResult
deriving DecidableEq, Repr

/-- `SpacedRepetitionManager.get_session_progress`. -/
def getSessionProgress (st : MgrState) (sessionId : String) (now : ℤ) :
    GetProgressResult :=
  match findSession st sessionId with
  | none => .sessionNotFound
  | some s =>
    .progress
      { sessionId := sessionId
        completed := s.currentCardIndex
        total := s.cards.length
        remaining := s.cards.length - s.currentCardIndex
        startTime := s.startTime
        durationMinutes := ((now - s.startTime : ℤ) : ℚ) / 60
        category := s.category }

/-- The possible return dicts of `start_review_session`. -/
inductive StartSessionResult where
  /-- `{"session_id": ..., "cards": [], "message": ..., "total_due": 0}` -/
  | noCardsDue (sessionId : String) (cards : List DueCard) (message : String)
      (totalDue : ℕ) : StartSessionResult
  /-- `{"session_id": ..., "cards": ..., "total_cards": ..., "current_card": 0,
  "category": ...}` -/
  | started (sessionId : String) (cards : List DueCard) (totalCards : ℕ)
      (currentCard : ℕ) (category : Option String) : StartSessionResult
deriving DecidableEq, Repr

/-- `SpacedRepetitionManager.start_review_session`. -/
def startReviewSession (st : MgrState) (cards : List Flashcard) (userId : ℤ)
    (category : Option String) (maxCards : ℕ) (now : ℤ) :
    StartSessionResult × MgrState :=
  let sessionId := mkSessionId userId now
  let dueCards := getDueCards cards userId category maxCards now
  if dueCards.isEmpty then
    (.noCardsDue sessionId [] "No cards due for review right now!" 0, st)
  else
    let sessionData : Session :=
      { sessionId := sessionId, userId := userId, startTime := now,
        cards := dueCards, currentCardIndex := 0, reviewedCards := [],
        category := category, maxCards := maxCards }
    (.started sessionId dueCards dueCards.length 0 category,
      storeSession st sessionId sessionData)

/-- `SpacedRepetitionManager.cleanup_expired_sessions`: drop every session
whose `start_time` lies more than 7200 seconds in the past, returning how
many were dropped. -/
def cleanupExpiredSessions (st : MgrState) (now : ℤ) : MgrState × ℕ :=
  let expired := st.filter fun kv => decide (7200 < now - kv.2.startTime)
  (st.filter fun kv => !(decide (7200 < now - kv.2.startTime)), expired.length)

/-- Iterated `review_card` against one session id, returning the result of
the last call (`none` when no call was made). -/
def runReviews (sid : String) (commitOk : Bool) (now : ℤ) :
    List ℤ → MgrState × List Flashcard →
      Option ReviewCardResult × MgrState × List Flashcard
  | [], (st, db) => (none, st, db)
  | q :: rest, (st, db) =>
    let r := reviewCard st db sid q commitOk now
    match rest with
    | [] => (some r.1, r.2.1, r.2.2)
    | _ :: _ => runReviews sid commitOk now rest (r.2.1, r.2.2)

end SpacedRepetitionManager

/-! Dictionary lemmas for the session registry. -/

theorem findSession_setSession_self (st : MgrState) (sid : String) (s s' : Session)
    (h : findSession st sid = some s) :
    findSession (setSession st sid s') sid = some s' := by
  induction st with
  | nil => simp [findSession] at h
  | cons kv rest ih =>
    rcases kv with ⟨k, v⟩
    by_cases hk : k = sid
    · simp [findSession, setSession, hk]
    · simp only [findSession, setSession, hk, if_false, ite_false] at h ⊢
      exact ih h

theorem findSession_eraseSession_self (st : MgrState) (sid : String) :
    findSession (eraseSession st sid) sid = none := by
  induction st with
  | nil => rfl
  | cons kv rest ih =>
    rcases kv with ⟨k, v⟩
    by_cases hk : k = sid
    · simpa [eraseSession, hk] using ih
    · simpa [eraseSession, findSession, hk] using ih

theorem findSession_append_of_none (st l : MgrState) (sid : String)
    (h : findSession st sid = none) :
    findSession (st ++ l) sid = findSession l sid := by
  induction st with
  | nil => rfl
  | cons kv rest ih =>
    rcases kv with ⟨k, v⟩
    by_cases hk : k = sid
    · simp [findSession, hk] at h
    · simp only [findSession, hk, if_false, ite_false, List.cons_append] at h ⊢
      exact ih h

theorem findSession_storeSession_self (st : MgrState) (sid : String) (s : Session) :
    findSession (storeSession st sid s) sid = some s := by
  unfold storeSession
  cases hf : findSession st sid with
  | none => simp [hf, findSession_append_of_none st [(sid, s)] sid hf, findSession]
  | some v => simp [hf, findSession_setSession_self st sid v s hf]

theorem findSession_eq_none_of_not_mem (st : MgrState) (sid : String)
    (h : sid ∉ st.map Prod.fst) : findSession st sid = none := by
  induction st with
  | nil => rfl
  | cons kv rest ih =>
    rcases kv with ⟨k, v⟩
    simp only [List.map_cons, List.mem_cons] at h
    push_neg at h
    have hk : ¬ k = sid := fun he => h.1 he.symm
    simp only [findSession, hk, if_false, ite_false]
    exact ih h.2

theorem findSession_filter_of_none (p : String × Session → Bool) (st : MgrState)
    (sid : String) (h : findSession st sid = none) :
    findSession (st.filter p) sid = none := by
  induction st with
  | nil => rfl
  | cons kv rest ih =>
    rcases kv with ⟨k, v⟩
    by_cases hk : k = sid
    · simp [findSession, hk] at h
    · simp only [findSession, hk, if_false, ite_false] at h
      simp only [List.filter_cons]
      cases hp : p (k, v)
      · simpa using ih h
      · simpa [findSession, hk] using ih h

theorem findSession_filter_none (p : String × Session → Bool) (st : MgrState)
    (sid : String) (s : Session) (hN : (st.map Prod.fst).Nodup)
    (hf : findSession st sid = some s) (hp : p (sid, s) = false) :
    findSession (st.filter p) sid = none := by
  induction st with
  | nil => simp [findSession] at hf
  | cons kv rest ih =>
    rcases kv with ⟨k, v⟩
    simp only [List.map_cons, List.nodup_cons] at hN
    by_cases hk : k = sid
    · subst hk
      have hv : v = s := by simpa [findSession] using hf
      subst hv
      simp only [List.filter_cons, hp]
      exact findSession_filter_of_none p rest k
        (findSession_eq_none_of_not_mem rest k hN.1)
    · simp only [findSession, hk, if_false, ite_false] at hf
      simp only [List.filter_cons]
      cases hpk : p (k, v)
      · simpa using ih hN.2 hf
      · simpa [findSession, hk] using ih hN.2 hf

namespace SpacedRepetitionManager

theorem reviewCard_step_mid (st : MgrState) (db : List Flashcard) (sid : String)
    (q : ℤ) (ok : Bool) (now : ℤ) (s : Session)
    (hf : findSession st sid = some s)
    (h2 : s.currentCardIndex + 1 < s.cards.length) :
    (∃ c pr tel, (reviewCard st db sid q ok now).1 = .nextCard c pr tel) ∧
      ∃ s', findSession (reviewCard st db sid q ok now).2.1 sid = some s' ∧
        s'.cards = s.cards ∧ s'.currentCardIndex = s.currentCardIndex + 1 := by
  have h1 : s.currentCardIndex < s.cards.length := by omega
  simp only [reviewCard, hf]
  rw [dif_pos h1]
  dsimp only
  rw [dif_pos h2]
  exact ⟨⟨_, _, _, rfl⟩, ⟨_, findSession_setSession_self st sid s _ hf, rfl, rfl⟩⟩

theorem reviewCard_step_last (st : MgrState) (db : List Flashcard) (sid : String)
    (q : ℤ) (ok : Bool) (now : ℤ) (s : Session)
    (hf : findSession st sid = some s)
    (hlt : s.currentCardIndex < s.cards.length)
    (hlast : ¬ s.currentCardIndex + 1 < s.cards.length) :
    (∃ sum, (reviewCard st db sid q ok now).1 = .completed sum) ∧
      findSession (reviewCard st db sid q ok now).2.1 sid = none := by
  simp only [reviewCard, hf]
  rw [dif_pos hlt]
  dsimp only
  rw [dif_neg hlast]
  exact ⟨⟨_, rfl⟩, findSession_eraseSession_self _ sid⟩

theorem runReviews_completes (sid : String) (ok : Bool) (now : ℤ) :
    ∀ (qs : List ℤ) (st : MgrState) (db : List Flashcard) (s : Session),
      findSession st sid = some s →
      s.currentCardIndex + qs.length = s.cards.length →
      qs ≠ [] →
      (∃ sum, (runReviews sid ok now qs (st, db)).1 = some (.completed sum)) ∧
        findSession (runReviews sid ok now qs (st, db)).2.1 sid = none := by
  intro qs
  induction qs with
  | nil => intro st db s hf hlen hne; exact absurd rfl hne
  | cons q rest ih =>
    intro st db s hf hlen hne
    match rest with
    | [] =>
      have hlast : ¬ s.currentCardIndex + 1 < s.cards.length := by
        simp at hlen; omega
      have hlt : s.currentCardIndex < s.cards.length := by
        simp at hlen; omega
      obtain ⟨⟨sum, hsum⟩, hnone⟩ :=
        reviewCard_step_last st db sid q ok now s hf hlt hlast
      exact ⟨⟨sum, by simp [runReviews, hsum]⟩, by simp [runReviews, hnone]⟩
    | q2 :: rest2 =>
      have h2 : s.currentCardIndex + 1 < s.cards.length := by
        simp at hlen; omega
      obtain ⟨_, s', hfind', hcards, hidx⟩ :=
        reviewCard_step_mid st db sid q ok now s hf h2
      have hlen' : s'.currentCardIndex + (q2 :: rest2).length = s'.cards.length := by
        rw [hidx, hcards]
        simp at hlen ⊢
        omega
      have hrec := ih (reviewCard st db sid q ok now).2.1
        (reviewCard st db sid q ok now).2.2 s' hfind' hlen' (by simp)
      simpa [runReviews] using hrec

end SpacedRepetitionManager

namespace SpacedRepetitionManager

/-- True exactly on the two error dicts `review_card` can return. -/
def ReviewCardResult.isError : ReviewCardResult → Bool
  | .sessionNotFound => true
  | .noMoreCards => true
  | _ => false

/-- True exactly on the completion payload of `review_card`. -/
def ReviewCardResult.isCompleted : ReviewCardResult → Bool
  | .completed _ => true
  | _ => false

/-- A rejected commit is caught inside `_update_card_in_database`, which
then returns normally with the store unchanged. -/
theorem updateCardInDatabase_reject (db : List Flashcard) (r : ReviewResult)
    (now : ℤ) : updateCardInDatabase db false r now = db := by
  simp [updateCardInDatabase]

end SpacedRepetitionManager

/-- A second sample card, differing from `sampleCard` in id and ease factor. -/
def sampleCard2 : DueCard :=
  { sampleCard with
    id := 2
    easeFactor := 2 }

/-- A freshly started two-card session fixture. -/
def sampleSession : Session :=
  { sessionId := "s"
    userId := 1
    startTime := 0
    cards := [sampleCard, sampleCard2]
    currentCardIndex := 0
    reviewedCards := []
    category := none
    maxCards := 20 }

/-- A registry holding just `sampleSession` under id "s". -/
def sampleState : MgrState := [("s", sampleSession)]

/-- A freshly started one-card session fixture. -/
def oneCardSession : Session :=
  { sampleSession with
    cards := [sampleCard] }

/-- A registry holding just `oneCardSession` under id "s". -/
def oneCardState : MgrState := [("s", oneCardSession)]

open SpacedRepetitionManager in
/-- Claim C3 counterexample: with the collaborator store rejecting the write
(`commitOk = false`), `review_card` still advances the session cursor from 0
to 1, appends one entry to the review log, and returns a non-error result —
the claim's required behaviour (cursor and log untouched, a distinct
persistence-failure kind returned) does not happen. -/
theorem C3_counterexample :
    (findSession (reviewCard sampleState [] "s" 3 false 0).2.1 "s").map
        (fun s => (s.currentCardIndex, s.reviewedCards.length)) = some (1, 1) ∧
    (reviewCard sampleState [] "s" 3 false 0).1.isError = false := by
  exact ⟨rfl, rfl⟩

open SpacedRepetitionManager in
/-- Claim C3 amended: `_update_card_in_database` catches and logs a failed
persistence write without reporting it, so `review_card` behaves identically
whether or not the store accepts: it returns the same payload and performs
the same session mutation, and on rejection the card store is simply left
unchanged. No persistence-failure kind exists in its result type. -/
theorem C3_persistence_failure_swallowed (st : MgrState) (db : List Flashcard)
    (sid : String) (q now : ℤ) :
    (reviewCard st db sid q false now).1 = (reviewCard st db sid q true now).1 ∧
    (reviewCard st db sid q false now).2.1 =
      (reviewCard st db sid q true now).2.1 ∧
    (reviewCard st db sid q false now).2.2 = db := by
  cases hf : findSession st sid with
  | none => simp [reviewCard, hf]
  | some s =>
    by_cases h1 : s.currentCardIndex < s.cards.length
    · by_cases h2 : s.currentCardIndex + 1 < s.cards.length
      · simp only [reviewCard, hf]
        simp only [dif_pos h1]
        dsimp only
        simp only [dif_pos h2]
        simp [updateCardInDatabase_reject]
      · simp only [reviewCard, hf]
        simp only [dif_pos h1]
        dsimp only
        simp only [dif_neg h2]
        simp [updateCardInDatabase_reject]
    · simp only [reviewCard, hf]
      simp only [dif_neg h1]
      simp

open SpacedRepetitionManager in
/-- Claim C4 counterexample: after the final (here: only) card of a session
is reviewed, the call returns the completion summary and deletes the
session, so the subsequent `review_card` with the same id yields
"Session not found" (SessionNotFound) — not the claimed
"No more cards in session" (SessionExhausted). -/
theorem C4_counterexample :
    (reviewCard oneCardState [] "s" 3 true 0).1.isCompleted = true ∧
    (reviewCard (reviewCard oneCardState [] "s" 3 true 0).2.1
        (reviewCard oneCardState [] "s" 3 true 0).2.2 "s" 3 true 60).1 =
      ReviewCardResult.sessionNotFound ∧
    ReviewCardResult.sessionNotFound ≠ ReviewCardResult.noMoreCards := by
  refine ⟨rfl, rfl, by decide⟩

open SpacedRepetitionManager in
/-- Claim C4 amended: for a session started on N ≥ 1 due cards, the Nth
`review_card` call returns a completion summary and removes the session
from the registry; any subsequent `review_card` with the same session id
fails with SessionNotFound (the SessionExhausted branch is unreachable
after completion, because completion deletes the session). -/
theorem C4_completion_then_session_not_found (st : MgrState)
    (cards db : List Flashcard) (userId : ℤ) (category : Option String)
    (maxCards : ℕ) (now : ℤ) (qs : List ℤ) (q2 now2 : ℤ) (ok ok2 : Bool)
    (hdue : getDueCards cards userId category maxCards now ≠ [])
    (hqs : qs.length = (getDueCards cards userId category maxCards now).length) :
    (∃ sum, (runReviews (mkSessionId userId now) ok now qs
        ((startReviewSession st cards userId category maxCards now).2, db)).1 =
          some (.completed sum)) ∧
    (reviewCard
        (runReviews (mkSessionId userId now) ok now qs
          ((startReviewSession st cards userId category maxCards now).2, db)).2.1
        (runReviews (mkSessionId userId now) ok now qs
          ((startReviewSession st cards userId category maxCards now).2, db)).2.2
        (mkSessionId userId now) q2 ok2 now2).1 = .sessionNotFound := by
  have hempty : ¬ (getDueCards cards userId category maxCards now).isEmpty = true := by
    simpa [List.isEmpty_iff] using hdue
  have hst : (startReviewSession st cards userId category maxCards now).2 =
      storeSession st (mkSessionId userId now)
        { sessionId := mkSessionId userId now
          userId := userId
          startTime := now
          cards := getDueCards cards userId category maxCards now
          currentCardIndex := 0
          reviewedCards := []
          category := category
          maxCards := maxCards } := by
    simp only [startReviewSession]
    rw [if_neg hempty]
  have hfind := findSession_storeSession_self st (mkSessionId userId now)
    { sessionId := mkSessionId userId now
      userId := userId
      startTime := now
      cards := getDueCards cards userId category maxCards now
      currentCardIndex := 0
      reviewedCards := []
      category := category
      maxCards := maxCards }
  rw [hst]
  have hne : qs ≠ [] := by
    intro h
    subst h
    simp at hqs
    exact hdue (List.length_eq_zero.mp hqs.symm)
  obtain ⟨h1, h2⟩ := runReviews_completes (mkSessionId userId now) ok now qs _ db _
    hfind (by simpa using hqs) hne
  exact ⟨h1, by simp [reviewCard, h2]⟩

/-- A flashcard with no scheduled review yet, used as the witness store. -/
def c4Flashcard : Flashcard :=
  { id := 1
    userId := 1
    topic := "graphs"
    question := "what is BFS"
    answer := "level order"
    category := none
    difficulty := none
    easeFactor := 5/2
    interval := 1
    repetitionCount := 0
    reviewCount := 0
    isAiGenerated := false
    lastReviewed := none
    nextReview := none }

open SpacedRepetitionManager in
/-- Witness for C4, starting a session on a store with one due card and
reviewing it once with quality 3. -/
theorem C4_completion_then_session_not_found_witness :
    (getDueCards [c4Flashcard] 1 none 20 0 ≠ [] ∧
      [(3 : ℤ)].length = (getDueCards [c4Flashcard] 1 none 20 0).length) ∧
    ((∃ sum, (runReviews (mkSessionId 1 0) true 0 [(3 : ℤ)]
        ((startReviewSession [] [c4Flashcard] 1 none 20 0).2, [c4Flashcard])).1 =
          some (.completed sum)) ∧
    (reviewCard
        (runReviews (mkSessionId 1 0) true 0 [(3 : ℤ)]
          ((startReviewSession [] [c4Flashcard] 1 none 20 0).2, [c4Flashcard])).2.1
        (runReviews (mkSessionId 1 0) true 0 [(3 : ℤ)]
          ((startReviewSession [] [c4Flashcard] 1 none 20 0).2, [c4Flashcard])).2.2
        (mkSessionId 1 0) 2 true 60).1 = .sessionNotFound) :=
  ⟨⟨by decide, by decide⟩,
    C4_completion_then_session_not_found [] [c4Flashcard] [c4Flashcard] 1 none 20 0
      [(3 : ℤ)] 2 60 true true (by decide) (by decide)⟩

namespace SpacedRepetitionManager

/-- Ordering of card dicts by ease factor alone — the ordering the due-card
sort actually implements, since its primary key is constant. -/
def easeLe (a b : DueCard) : Prop := a.easeFactor ≤ b.easeFactor

instance : DecidableRel easeLe := fun a b => by
  unfold easeLe; infer_instance

instance : IsTotal DueCard easeLe :=
  ⟨fun a b => le_total a.easeFactor b.easeFactor⟩

instance : IsTrans DueCard easeLe :=
  ⟨fun _ _ _ h1 h2 => le_trans h1 h2⟩

theorem orderedInsert_congr {α : Type} (r₁ r₂ : α → α → Prop) [DecidableRel r₁]
    [DecidableRel r₂] (hrr : ∀ a b, r₁ a b ↔ r₂ a b) (x : α) (l : List α) :
    List.orderedInsert r₁ x l = List.orderedInsert r₂ x l := by
  induction l with
  | nil => rfl
  | cons y ys ih =>
    simp only [List.orderedInsert]
    by_cases h : r₁ x y
    · rw [if_pos h, if_pos ((hrr x y).mp h)]
    · rw [if_neg h, if_neg (fun hc => h ((hrr x y).mpr hc)), ih]

theorem insertionSort_congr {α : Type} (r₁ r₂ : α → α → Prop) [DecidableRel r₁]
    [DecidableRel r₂] (hrr : ∀ a b, r₁ a b ↔ r₂ a b) (l : List α) :
    List.insertionSort r₁ l = List.insertionSort r₂ l := by
  induction l with
  | nil => rfl
  | cons x xs ih =>
    simp only [List.insertionSort, ih, orderedInsert_congr r₁ r₂ hrr]

/-- Because every due-card dict lacks the `next_review` key, the tuple sort
key degenerates: comparing keys is comparing ease factors. -/
theorem dueKeyLe_iff_easeLe (now : ℤ) (a b : DueCard) :
    dueKeyLe now a b ↔ easeLe a b := by
  unfold dueKeyLe easeLe dueSortKey
  constructor
  · rintro (h | ⟨-, h⟩)
    · exact absurd h (lt_irrefl _)
    · exact h
  · intro h
    exact Or.inr ⟨rfl, h⟩

end SpacedRepetitionManager

open SpacedRepetitionManager in
/-- Claim C7 amended: `_get_due_cards` orders the selected due cards by
ascending ease_factor alone and truncates to `max_cards`. The overdue-first
primary key is computed from a `next_review` key that the built card dicts
never carry, so it is the same constant for every card and imposes no
ordering. -/
theorem C7_due_cards_sorted_by_ease_only (cards : List Flashcard) (userId : ℤ)
    (category : Option String) (maxCards : ℕ) (now : ℤ) :
    getDueCards cards userId category maxCards now =
      (List.insertionSort easeLe (dueSelection cards userId category now)).take
        maxCards ∧
    (getDueCards cards userId category maxCards now).Sorted easeLe ∧
    (getDueCards cards userId category maxCards now).length ≤ maxCards := by
  have hcongr := insertionSort_congr (dueKeyLe now) easeLe (dueKeyLe_iff_easeLe now)
    (dueSelection cards userId category now)
  refine ⟨by rw [getDueCards, hcongr], ?_, ?_⟩
  · unfold getDueCards
    rw [hcongr]
    exact List.Pairwise.sublist (List.take_sublist _ _)
      (List.sorted_insertionSort easeLe _)
  · unfold getDueCards
    exact List.length_take_le _ _

/-- A card due exactly at the query instant (not overdue), with low ease. -/
def c7CardA : Flashcard :=
  { c4Flashcard with
    id := 1
    easeFactor := 3/2
    nextReview := some 1000 }

/-- An overdue card, with high ease. -/
def c7CardB : Flashcard :=
  { c4Flashcard with
    id := 2
    easeFactor := 5/2
    nextReview := some 500 }

open SpacedRepetitionManager in
/-- Claim C7 counterexample: at time 1000, card B (`next_review = 500`, in
the past) is overdue and card A (`next_review = 1000`, not in the past) is
merely due, so the claimed overdue-first primary ordering would list B
before A; the code returns A before B because it effectively sorts by
ascending ease factor only. -/
theorem C7_counterexample :
    getDueCards [c7CardB, c7CardA] 1 none 20 1000 =
      [toDueCard c7CardA, toDueCard c7CardB] ∧
    c7CardA.nextReview = some 1000 ∧ c7CardB.nextReview = some 500 ∧
    ¬ (1000 : ℤ) < 1000 ∧ (500 : ℤ) < 1000 := by
  have hBA : ¬ dueKeyLe 1000 (toDueCard c7CardB) (toDueCard c7CardA) := by
    rw [dueKeyLe_iff_easeLe]
    norm_num [easeLe, toDueCard, c7CardA, c7CardB, c4Flashcard]
  have hsel : dueSelection [c7CardB, c7CardA] 1 none 1000 =
      [toDueCard c7CardB, toDueCard c7CardA] := by
    simp [dueSelection, isCardDue, c7CardA, c7CardB, c4Flashcard]
  have hins : List.insertionSort (dueKeyLe 1000)
      [toDueCard c7CardB, toDueCard c7CardA] =
      [toDueCard c7CardA, toDueCard c7CardB] := by
    simp [List.insertionSort, List.orderedInsert, hBA]
  refine ⟨?_, rfl, rfl, by norm_num, by norm_num⟩
  rw [getDueCards, hsel, hins]
  rfl

open SpacedRepetitionManager in
/-- Claim C8 counterexample: the session stored at time 0 has seen no
activity for more than the two-hour window by time 7201, yet `review_card`
at time 7201 still operates on it (it does not fail with SessionNotFound):
neither `review_card` nor `get_progress` checks expiry, only
`cleanup_expired_sessions` does. -/
theorem C8_counterexample :
    (7200 : ℤ) < 7201 - sampleSession.startTime ∧
    (reviewCard sampleState [] "s" 3 true 7201).1 ≠ .sessionNotFound := by
  exact ⟨by decide, by decide⟩

open SpacedRepetitionManager in
/-- Claim C8 amended: expiry (2 hours measured from `start_time`, not from
last activity) is enforced only when `cleanup_expired_sessions` runs: the
sweep removes every session older than two hours, after which `review_card`
and `get_progress` on its id fail with SessionNotFound; until the sweep
runs, such a session can still be operated on successfully. -/
theorem C8_cleanup_enforces_expiry (st : MgrState) (db : List Flashcard)
    (sid : String) (s : Session) (q now now2 : ℤ) (ok : Bool)
    (hN : (st.map Prod.fst).Nodup)
    (hf : findSession st sid = some s)
    (hexp : 7200 < now - s.startTime) :
    findSession (cleanupExpiredSessions st now).1 sid = none ∧
    (reviewCard (cleanupExpiredSessions st now).1 db sid q ok now2).1 =
      .sessionNotFound ∧
    getSessionProgress (cleanupExpiredSessions st now).1 sid now2 =
      .sessionNotFound := by
  have hp : (fun kv : String × Session =>
      !(decide (7200 < now - kv.2.startTime))) (sid, s) = false := by
    simp [hexp]
  have hnone : findSession (cleanupExpiredSessions st now).1 sid = none :=
    findSession_filter_none _ st sid s hN hf hp
  exact ⟨hnone, by simp [reviewCard, hnone], by simp [getSessionProgress, hnone]⟩

open SpacedRepetitionManager in
/-- Witness for C8 at the two-card fixture, swept at time 7201. -/
theorem C8_cleanup_enforces_expiry_witness :
    ((sampleState.map Prod.fst).Nodup ∧
      findSession sampleState "s" = some sampleSession ∧
      (7200 : ℤ) < 7201 - sampleSession.startTime) ∧
    (findSession (cleanupExpiredSessions sampleState 7201).1 "s" = none ∧
      (reviewCard (cleanupExpiredSessions sampleState 7201).1 [] "s" 3 true
        7202).1 = .sessionNotFound ∧
      getSessionProgress (cleanupExpiredSessions sampleState 7201).1 "s" 7202 =
        .sessionNotFound) :=
  ⟨⟨by decide, rfl, by decide⟩,
    C8_cleanup_enforces_expiry sampleState [] "s" sampleSession 3 7201 7202 true
      (by decide) rfl (by decide)⟩

open SpacedRepetitionManager in
/-- Claim C9 counterexample: two `get_progress` calls on the same session
with no intervening `review_card`, made one minute apart, return different
results: the `duration_minutes` field is computed from `datetime.now()` at
each call (0 at time 0 versus 1 at time 60). -/
theorem C9_counterexample :
    getSessionProgress sampleState "s" 0 ≠ getSessionProgress sampleState "s" 60 := by
  intro h
  have hd := congrArg (fun r => match r with
    | GetProgressResult.progress i => i.durationMinutes
    | GetProgressResult.sessionNotFound => 0) h
  simp only [getSessionProgress, sampleState, sampleSession, findSession] at hd
  norm_num at hd

open SpacedRepetitionManager in
/-- Claim C9 amended: `get_progress` is a pure read of the stored session,
and two calls with the same session id and no intervening `review_card`
agree on every field except `duration_minutes`, which reflects the clock at
each call; two calls at the same clock reading return fully identical
results. -/
theorem C9_progress_read_only_snapshot (st : MgrState) (sid : String)
    (t1 t2 : ℤ) (i1 i2 : ProgressInfo)
    (h1 : getSessionProgress st sid t1 = .progress i1)
    (h2 : getSessionProgress st sid t2 = .progress i2) :
    i1.sessionId = i2.sessionId ∧ i1.completed = i2.completed ∧
    i1.total = i2.total ∧ i1.remaining = i2.remaining ∧
    i1.startTime = i2.startTime ∧ i1.category = i2.category ∧
    (t1 = t2 → i1 = i2) := by
  unfold getSessionProgress at h1 h2
  cases hf : findSession st sid with
  | none =>
    rw [hf] at h1
    exact absurd h1 (by simp)
  | some s =>
    rw [hf] at h1 h2
    injection h1 with h1'
    injection h2 with h2'
    subst h1'
    subst h2'
    exact ⟨rfl, rfl, rfl, rfl, rfl, rfl, fun ht => by rw [ht]⟩

/-- The progress snapshot of `sampleState` at time 0. -/
def c9Info : SpacedRepetitionManager.ProgressInfo :=
  { sessionId := "s"
    completed := 0
    total := 2
    remaining := 2
    startTime := 0
    durationMinutes := ((0 - 0 : ℤ) : ℚ) / 60
    category := none }

open SpacedRepetitionManager in
/-- Witness for C9 at the two-card fixture, with both calls at time 0. -/
theorem C9_progress_read_only_snapshot_witness :
    (getSessionProgress sampleState "s" 0 = .progress c9Info ∧
      getSessionProgress sampleState "s" 0 = .progress c9Info) ∧
    (c9Info.sessionId = c9Info.sessionId ∧ c9Info.completed = c9Info.completed ∧
    c9Info.total = c9Info.total ∧ c9Info.remaining = c9Info.remaining ∧
    c9Info.startTime = c9Info.startTime ∧ c9Info.category = c9Info.category ∧
    ((0 : ℤ) = 0 → c9Info = c9Info)) :=
  ⟨⟨rfl, rfl⟩,
    C9_progress_read_only_snapshot sampleState "s" 0 0 c9Info c9Info rfl rfl⟩

open SpacedRepetitionManager in
/-- Claim C10: when zero cards are due, `start_review_session` returns the
freshly generated session id with an empty card list and leaves the
registry unchanged; since that id is unused, any subsequent `review_card`
or `get_progress` call with it fails with the session-not-found error. -/
theorem C10_no_cards_due_not_stored (st : MgrState) (cards db : List Flashcard)
    (userId : ℤ) (category : Option String) (maxCards : ℕ) (now now2 q : ℤ)
    (ok : Bool)
    (hdue : getDueCards cards userId category maxCards now = [])
    (hfree : findSession st (mkSessionId userId now) = none) :
    startReviewSession st cards userId category maxCards now =
      (.noCardsDue (mkSessionId userId now) []
        "No cards due for review right now!" 0, st) ∧
    (reviewCard st db (mkSessionId userId now) q ok now2).1 = .sessionNotFound ∧
    getSessionProgress st (mkSessionId userId now) now2 = .sessionNotFound := by
  refine ⟨?_, by simp [reviewCard, hfree], by simp [getSessionProgress, hfree]⟩
  simp [startReviewSession, hdue]

open SpacedRepetitionManager in
/-- Witness for C10 on an empty card store and empty registry. -/
theorem C10_no_cards_due_not_stored_witness :
    (getDueCards [] 1 none 20 0 = [] ∧
      findSession ([] : MgrState) (mkSessionId 1 0) = none) ∧
    (startReviewSession [] [] 1 none 20 0 =
      (.noCardsDue (mkSessionId 1 0) [] "No cards due for review right now!" 0,
        ([] : MgrState)) ∧
    (reviewCard [] [] (mkSessionId 1 0) 3 true 60).1 = .sessionNotFound ∧
    getSessionProgress [] (mkSessionId 1 0) 60 = .sessionNotFound) :=
  ⟨⟨rfl, rfl⟩,
    C10_no_cards_due_not_stored [] [] [] 1 none 20 0 60 3 true rfl rfl⟩

end CodeTrack
